import Mathlib

/-!
Verification of the it-bot-service core (agents, agent factory, orchestrator,
task manager) against its natural-language specification.

The Go source is shallowly embedded:
- `map[string]interface{}` values become the inductive `GoVal`; Go maps become
  association lists (`List (String × α)`) whose list order models Go's
  (unspecified) iteration order; key uniqueness is assumed as in a Go map.
- Wall-clock time (`time.Now()`) is modelled by an explicit `now : Nat`
  parameter; durations measured inside a call are 0 under this fixed clock.
- Go numeric config values (`float64`) are modelled as `Int`; every numeric
  value appearing in the claims is integral and exactly representable.
- Functions returning `(T, error)` become `T × Option String` (some = non-nil
  error) or `Except String T` when no partial state escapes on error.
- `rand.Intn n`, which panics for `n ≤ 0`, is modelled as an `Option` result
  (`none` = panic), with the random draw passed in explicitly.
- Go `int`/`int64` counters are modelled as `Int`; no claim approaches the
  2^63 wrap, so no modular reduction is applied.
-/

/-- Go `interface{}` values as they occur in config/input/output bags. -/
inductive GoVal where
  | vNull : GoVal
  | vStr : String → GoVal
  | vInt : Int → GoVal
  | vBool : Bool → GoVal
  | vList : List GoVal → GoVal
  | vMap : List (String × GoVal) → GoVal
deriving Repr

/-- Association-list lookup modelling `m[k]` on a Go map (first match). -/
def alGet {α : Type} (l : List (String × α)) (k : String) : Option α :=
  match l with
  | [] => none
  | (k', v) :: rest => if k' = k then some v else alGet rest k

/-- Association-list update modelling `m[k] = v` on a Go map: replace the
binding if the key is present, append it otherwise. -/
def alSet {α : Type} (l : List (String × α)) (k : String) (v : α) : List (String × α) :=
  match l with
  | [] => [(k, v)]
  | (k', v') :: rest => if k' = k then (k, v) :: rest else (k', v') :: alSet rest k v

/-- A Go map of type `map[string]interface{}`. -/
abbrev GoMap := List (String × GoVal)

/-! ## Agent status and health (src/unnamed/part_002, `baseAgent`) -/

/-- `AgentStatus` constants from the mcp package. -/
inductive AgentStatus where
  | idle : AgentStatus
  | busy : AgentStatus
  | error : AgentStatus
  | terminated : AgentStatus
deriving Repr, DecidableEq

/-- `baseAgent.IsHealthy`: false when terminated, true when idle or busy,
false for every other status (including `error`). -/
def IsHealthy (status : AgentStatus) : Bool :=
  if status = .terminated then false
  else if status = .idle ∨ status = .busy then true
  else false

/-! ## Task manager (src/internal/services/task_manager.go) -/

/-- `domain.TaskStatus` constants. -/
inductive TaskStatus where
  | pending : TaskStatus
  | running : TaskStatus
  | completed : TaskStatus
  | failed : TaskStatus
  | cancelled : TaskStatus
deriving Repr, DecidableEq

/-- `domain.AsyncTask`. Timestamps are abstract clock values (`Nat`). -/
structure AsyncTask where
  id : String
  taskType : String
  description : String
  userID : String
  botID : String
  input : GoMap
  taskContext : GoMap
  metadata : GoMap
  priority : Int
  timeout : Int
  status : TaskStatus
  result : GoMap
  error : String
  executionTime : Int
  createdAt : Nat
  updatedAt : Nat
  startedAt : Nat
  completedAt : Nat
deriving Repr

/-- `services.TaskStats` (worker-local stats live in the worker goroutines and
are not touched by the operations modelled here). -/
structure TaskStats where
  totalTasks : Int
  pendingTasks : Int
  runningTasks : Int
  completedTasks : Int
  failedTasks : Int
  cancelledTasks : Int
  tasksByType : List (String × Int)
  averageTime : Int
  lastUpdated : Nat
deriving Repr, DecidableEq

/-- The mutable state of `services.taskManager`: the task table, the buffered
channel (FIFO queue of task IDs bounded by `maxQueueSize`), whether `Start`
has run (`tm.ctx != nil`), the stats record, and the construction params. -/
structure TaskManagerState where
  tasks : List (String × AsyncTask)
  queue : List String
  started : Bool
  stats : TaskStats
  workerCount : Int
  maxQueueSize : Int
deriving Repr

/-- Zero-value `TaskStats` as built by `NewTaskManager`. -/
def emptyTaskStats : TaskStats :=
  { totalTasks := 0, pendingTasks := 0, runningTasks := 0, completedTasks := 0,
    failedTasks := 0, cancelledTasks := 0, tasksByType := [], averageTime := 0,
    lastUpdated := 0 }

/-- `NewTaskManager`: defaults `workerCount` to 5 and `maxQueueSize` to 1000
when non-positive; the manager starts unstarted with empty table and queue. -/
def NewTaskManager (workerCount maxQueueSize : Int) : TaskManagerState :=
  let wc := if workerCount ≤ 0 then 5 else workerCount
  let mq := if maxQueueSize ≤ 0 then 1000 else maxQueueSize
  { tasks := [], queue := [], started := false, stats := emptyTaskStats,
    workerCount := wc, maxQueueSize := mq }

/-- Bump `stats.TasksByType[taskType]` by one (`tm.stats.TasksByType[task.Type]++`). -/
def bumpTaskType (m : List (String × Int)) (taskType : String) : List (String × Int) :=
  match alGet m taskType with
  | some n => alSet m taskType (n + 1)
  | none => alSet m taskType 1

/-- `taskManager.SubmitTask`. Returns the post-call state and the returned
error (`some` = non-nil). The `select`/`default` non-blocking enqueue is
modelled by comparing the queue length against the channel capacity. -/
def SubmitTask (tm : TaskManagerState) (task : AsyncTask) (now : Nat) :
    TaskManagerState × Option String :=
  if tm.started = false then
    (tm, some "task manager not started")
  else
    let effID := if task.id = "" then "task-" ++ toString now else task.id
    let task1 := { task with id := effID, createdAt := now, updatedAt := now,
                             status := TaskStatus.pending }
    let stats1 := { tm.stats with totalTasks := tm.stats.totalTasks + 1,
                                  pendingTasks := tm.stats.pendingTasks + 1,
                                  tasksByType := bumpTaskType tm.stats.tasksByType task1.taskType }
    if tm.queue.length < tm.maxQueueSize.toNat then
      ({ tm with tasks := alSet tm.tasks effID task1,
                 stats := stats1,
                 queue := tm.queue ++ [effID] }, none)
    else
      let task2 := { task1 with status := TaskStatus.failed,
                                error := "task queue is full",
                                completedAt := now }
      let stats2 := { stats1 with pendingTasks := stats1.pendingTasks - 1,
                                  failedTasks := stats1.failedTasks + 1 }
      ({ tm with tasks := alSet tm.tasks effID task2, stats := stats2 },
       some "task queue is full")

/-- `taskManager.CancelTask`. The Go code first overwrites `task.Status` with
`Cancelled` and only afterwards compares `task.Status` against Pending and
Running, so those comparisons read the already-overwritten status; the
embedding sequences the assignments in the same order. -/
def CancelTask (tm : TaskManagerState) (taskID : String) (now : Nat) :
    TaskManagerState × Option String :=
  match alGet tm.tasks taskID with
  | none => (tm, some ("task not found: " ++ taskID))
  | some task =>
    if task.status = TaskStatus.completed ∨ task.status = TaskStatus.failed then
      (tm, some "cannot cancel completed task")
    else
      let task1 := { task with status := TaskStatus.cancelled, updatedAt := now,
                               completedAt := now, error := "task cancelled by user" }
      let stats1 :=
        if task1.status = TaskStatus.pending then
          { tm.stats with pendingTasks := tm.stats.pendingTasks - 1 }
        else if task1.status = TaskStatus.running then
          { tm.stats with runningTasks := tm.stats.runningTasks - 1 }
        else tm.stats
      let stats2 := { stats1 with cancelledTasks := stats1.cancelledTasks + 1 }
      ({ tm with tasks := alSet tm.tasks taskID task1, stats := stats2 }, none)

/-- `taskManager.GetStats`: returns a copy of the stats with `LastUpdated`
stamped (deep-copying of the maps is the identity in in this pure model). -/
def GetStats (tm : TaskManagerState) (now : Nat) : TaskStats :=
  { tm.stats with lastUpdated := now }

/-! ## Agent factory (src/internal/mcp/factory.go) and agent construction -/

/-- `mcp.MCPConfig`. `config` is `Option`al to model a nil Go map. -/
structure MCPConfig where
  type : String
  name : String
  version : String
  config : Option GoMap
  capabilities : List String
  timeout : Int
deriving Repr

/-- Lookup in a possibly-nil config map (a nil Go map contains no keys). -/
def cfgGet (config : Option GoMap) (k : String) : Option GoVal :=
  match config with
  | none => none
  | some m => alGet m k

/-- `mcp.WorkflowStep`. `timeout` is never populated by `parseWorkflowSteps`. -/
structure WorkflowStep where
  type : String
  description : String
  config : GoMap
  onError : String
  timeout : Int
deriving Repr

/-- The per-element loop of `parseWorkflowSteps`: each element must be an
object; `type`, `description`, `on_error` are taken only when they are
strings; `config` only when it is a map; a step whose parsed type is empty
is an error. -/
def parseStepList : List GoVal → Nat → Except String (List WorkflowStep)
  | [], _ => .ok []
  | stepVal :: rest, i =>
    match stepVal with
    | .vMap stepMap =>
      let t := match alGet stepMap "type" with
        | some (.vStr s) => s
        | _ => ""
      let d := match alGet stepMap "description" with
        | some (.vStr s) => s
        | _ => ""
      let oe := match alGet stepMap "on_error" with
        | some (.vStr s) => s
        | _ => ""
      let cfg := match alGet stepMap "config" with
        | some (.vMap m) => m
        | _ => []
      if t = "" then .error ("step " ++ toString i ++ " must have a type")
      else
        match parseStepList rest (i + 1) with
        | .ok steps => .ok ({ type := t, description := d, config := cfg,
                              onError := oe, timeout := 0 } :: steps)
        | .error e => .error e
    | _ => .error ("step " ++ toString i ++ " must be an object")

/-- `mcp.parseWorkflowSteps`: requires a `steps` key holding an array. -/
def parseWorkflowSteps (config : Option GoMap) : Except String (List WorkflowStep) :=
  match cfgGet config "steps" with
  | none => .error "workflow config must contain 'steps'"
  | some stepsVal =>
    match stepsVal with
    | .vList stepsArray => parseStepList stepsArray 0
    | _ => .error "steps must be an array"

/-- `agentFactory.GetSupportedTypes`. -/
def GetSupportedTypes : List String := ["ai", "http", "workflow", "adapter", "mock"]

/-- `agentFactory.validateAIConfig`. -/
def validateAIConfig (config : MCPConfig) : Option String :=
  match config.config with
  | none => some "AI agent requires config"
  | some m =>
    if (alGet m "openai_api_key").isNone then
      if (alGet m "vertex_project").isNone then
        some "AI agent requires either openai_api_key or vertex_project"
      else none
    else none

/-- `agentFactory.validateHTTPConfig`. -/
def validateHTTPConfig (config : MCPConfig) : Option String :=
  match config.config with
  | none => some "HTTP agent requires config"
  | some m =>
    match alGet m "base_url" with
    | none => some "HTTP agent requires base_url in config"
    | some (.vStr _) => none
    | some _ => some "base_url must be a string"

/-- `agentFactory.validateWorkflowConfig`: only checks that `steps` exists and
is an array; the shape of the array's elements is not validated here. -/
def validateWorkflowConfig (config : MCPConfig) : Option String :=
  match config.config with
  | none => some "Workflow agent requires config"
  | some m =>
    match alGet m "steps" with
    | none => some "Workflow agent requires steps in config"
    | some (.vList _) => none
    | some _ => some "steps must be an array"

/-- `agentFactory.validateMockConfig`: mock agents need no specific config. -/
def validateMockConfig (_config : MCPConfig) : Option String := none

/-- `agentFactory.validateAdapterConfig`: adapter agents need no specific config. -/
def validateAdapterConfig (_config : MCPConfig) : Option String := none

/-- `agentFactory.ValidateConfig`: type and name non-empty, type supported,
then the per-type check. `none` models a nil error (valid config). -/
def ValidateConfig (config : MCPConfig) : Option String :=
  if config.type = "" then some "agent type is required"
  else if config.name = "" then some "agent name is required"
  else if !(GetSupportedTypes.contains config.type) then
    some ("unsupported agent type: " ++ config.type)
  else if config.type = "ai" then validateAIConfig config
  else if config.type = "http" then validateHTTPConfig config
  else if config.type = "workflow" then validateWorkflowConfig config
  else if config.type = "adapter" then validateAdapterConfig config
  else if config.type = "mock" then validateMockConfig config
  else none

/-- The variant-specific data each `New*Agent` constructor computes and
stores (the shared `baseAgent` bookkeeping is identical for all variants). -/
inductive AgentRepr where
  | aiAgent (apiKey model baseURL : String) (useMock : Bool) (timeoutMs : Int)
  | httpAgent (baseURL : String) (headers : List (String × String)) (timeoutMs : Int)
  | workflowAgent (steps : List WorkflowStep)
  | adapterAgent
  | mockAgent (responses : List String)
deriving Repr

/-- `mcp.NewAIAgent`: never returns an error; missing or placeholder
credential switches the agent to mock mode. Timeouts in milliseconds. -/
def NewAIAgent (config : MCPConfig) : AgentRepr :=
  let apiKey := match cfgGet config.config "openai_api_key" with
    | some (.vStr s) => s
    | _ => ""
  let model0 := match cfgGet config.config "model" with
    | some (.vStr s) => s
    | _ => ""
  let model := if model0 = "" then "gpt-3.5-turbo" else model0
  let baseURL := match cfgGet config.config "base_url" with
    | some (.vStr s) => s
    | _ => "https://api.openai.com/v1"
  let useMock := apiKey = "" || apiKey = "sk-test-key"
  let timeoutMs := if config.timeout > 0 then config.timeout else 30000
  .aiAgent apiKey model baseURL useMock timeoutMs

/-- `mcp.NewHTTPAgent`: never returns an error; default headers plus any
string-valued custom headers from the config. -/
def NewHTTPAgent (config : MCPConfig) : AgentRepr :=
  let baseURL := match cfgGet config.config "base_url" with
    | some (.vStr s) => s
    | _ => ""
  let defaults := [("Content-Type", "application/json"),
                   ("User-Agent", "it-bot-service-agent/" ++ config.version)]
  let headers := match cfgGet config.config "headers" with
    | some (.vMap m) =>
      m.foldl (fun acc kv =>
        match kv.2 with
        | .vStr s => alSet acc kv.1 s
        | _ => acc) defaults
    | _ => defaults
  let timeoutMs := if config.timeout > 0 then config.timeout else 30000
  .httpAgent baseURL headers timeoutMs

/-- `mcp.NewMockAgent`: never returns an error; keeps only string entries of
a configured `responses` array, else the four default responses. -/
def NewMockAgent (config : MCPConfig) : AgentRepr :=
  let defaults := ["Mock agent executed task successfully",
                   "Task completed with mock data",
                   "Simulated execution completed",
                   "Mock response generated"]
  let responses := match cfgGet config.config "responses" with
    | some (.vList l) =>
      l.foldl (fun acc v =>
        match v with
        | .vStr s => acc ++ [s]
        | _ => acc) []
    | _ => defaults
  .mockAgent responses

/-- `agentFactory.CreateAgent`: closed dispatch over `config.type`; only the
workflow constructor can fail (when `parseWorkflowSteps` fails). -/
def CreateAgent (config : MCPConfig) : Except String AgentRepr :=
  if config.type = "ai" then .ok (NewAIAgent config)
  else if config.type = "http" then .ok (NewHTTPAgent config)
  else if config.type = "workflow" then
    match parseWorkflowSteps config.config with
    | .ok steps => .ok (.workflowAgent steps)
    | .error e => .error ("failed to parse workflow steps: " ++ e)
  else if config.type = "adapter" then .ok .adapterAgent
  else if config.type = "mock" then .ok (NewMockAgent config)
  else .error ("unsupported agent type: " ++ config.type)

/-! ## Workflow agent execution (src/internal/mcp/workflow_agent.go) -/

/-- `mcp.Task` (the orchestrator's internal task shape). -/
structure McpTask where
  id : String
  type : String
  description : String
  input : GoMap
  priority : Int
  deadline : Option Nat
  metadata : GoMap
deriving Repr

/-- `mcp.Result`. `duration` in milliseconds (0 under the fixed clock). -/
structure McpResult where
  taskID : String
  success : Bool
  output : GoMap
  error : String
  duration : Int
  metadata : GoMap
  nextActions : List String
deriving Repr

mutual

/-- Rendering of a `GoVal` by Go's `fmt.Sprintf("%v", v)`. Lists render as
space-separated elements in brackets and maps as `map[k:v ...]` (Go sorts map
keys when printing; the association-list order stands in for that order). -/
def govToString : GoVal → String
  | .vNull => "<nil>"
  | .vStr s => s
  | .vInt n => toString n
  | .vBool b => if b then "true" else "false"
  | .vList xs => "[" ++ govToStringList xs ++ "]"
  | .vMap m => "map[" ++ govToStringPairs m ++ "]"

/-- Space-separated rendering of list elements, as in Go's `%v`. -/
def govToStringList : List GoVal → String
  | [] => ""
  | [x] => govToString x
  | x :: xs => govToString x ++ " " ++ govToStringList xs

/-- Space-separated `k:v` rendering of map entries, as in Go's `%v`. -/
def govToStringPairs : List (String × GoVal) → String
  | [] => ""
  | [(k, v)] => k ++ ":" ++ govToString v
  | (k, v) :: xs => k ++ ":" ++ govToString v ++ " " ++ govToStringPairs xs

end

/-- `workflowAgent.replaceVariables`: replaces each `\x7b\x7bkey\x7d\x7d`
placeholder with the `%v` rendering of the value. -/
def replaceVariables (text : String) (data : GoMap) : String :=
  data.foldl (fun result kv =>
    result.replace ("\x7b\x7b" ++ kv.1 ++ "\x7d\x7d") (govToString kv.2)) text

/-- `strings.ToLower`. -/
def strToLower (s : String) : String := s.map Char.toLower

/-- `strings.ToUpper`. -/
def strToUpper (s : String) : String := s.map Char.toUpper

/-- `workflowAgent.evaluateCondition`: the source's dummy evaluation, true
iff the workflow data map is non-empty. -/
def evaluateCondition (_condition : String) (data : GoMap) : Bool :=
  data.length > 0

/-- RFC3339 rendering of the abstract clock used in step outputs. -/
def clockValue (now : Nat) : GoVal := .vInt (Int.ofNat now)

/-- `workflowAgent.executeLogStep`. -/
def executeLogStep (step : WorkflowStep) (workflowData : GoMap) (now : Nat) : GoVal :=
  let message0 := match alGet step.config "message" with
    | some (.vStr s) => s
    | _ => "Workflow step executed"
  let message := replaceVariables message0 workflowData
  .vMap [("message", .vStr message), ("timestamp", clockValue now)]

/-- `workflowAgent.executeDelayStep` (the wait finishes; cancellation is a
real-time effect outside this model). Delay duration rendered in ms. -/
def executeDelayStep (step : WorkflowStep) : GoVal :=
  let delayMs := match alGet step.config "delay_ms" with
    | some (.vInt n) => n
    | _ => 1000
  .vMap [("delay_ms", .vInt delayMs),
         ("message", .vStr ("Delayed for " ++ toString delayMs ++ "ms"))]

/-- `workflowAgent.executeTransformStep`: builds a fresh map from the
workflow data without mutating it. -/
def executeTransformStep (step : WorkflowStep) (workflowData : GoMap) :
    Except String GoVal :=
  match alGet step.config "operation" with
  | some (.vStr operation) =>
    if operation = "normalize" then
      .ok (.vMap (workflowData.map (fun kv =>
        match kv.2 with
        | .vStr s => (kv.1, .vStr (strToLower s.trim))
        | v => (kv.1, v))))
    else if operation = "uppercase" then
      .ok (.vMap (workflowData.map (fun kv =>
        match kv.2 with
        | .vStr s => (kv.1, .vStr (strToUpper s))
        | v => (kv.1, v))))
    else .error ("unsupported transform operation: " ++ operation)
  | _ => .error "transform step requires 'operation' config"

/-- `workflowAgent.executeConditionStep`. -/
def executeConditionStep (step : WorkflowStep) (workflowData : GoMap) :
    Except String GoVal :=
  match alGet step.config "condition" with
  | some (.vStr condition) =>
    .ok (.vMap [("condition", .vStr condition),
                ("result", .vBool (evaluateCondition condition workflowData)),
                ("evaluated", .vBool true)])
  | _ => .error "condition step requires 'condition' config"

/-- `workflowAgent.executeHTTPCallStep`: a stub that simulates the call. -/
def executeHTTPCallStep (step : WorkflowStep) : GoVal :=
  let url := match alGet step.config "url" with
    | some (.vStr s) => s
    | _ => ""
  let method0 := match alGet step.config "method" with
    | some (.vStr s) => s
    | _ => ""
  let method := if method0 = "" then "GET" else method0
  .vMap [("url", .vStr url), ("method", .vStr method),
         ("status_code", .vInt 200),
         ("response", .vStr "Simulated HTTP response"),
         ("simulated", .vBool true)]

/-- `workflowAgent.executeSetVariableStep`: the only step that mutates the
workflow data; a missing `value` key stores Go's nil. -/
def executeSetVariableStep (step : WorkflowStep) (workflowData : GoMap) :
    Except String GoVal × GoMap :=
  match alGet step.config "name" with
  | some (.vStr varName) =>
    let value := match alGet step.config "value" with
      | some v => v
      | none => .vNull
    (.ok (.vMap [("variable", .vStr varName), ("value", value),
                 ("set", .vBool true)]),
     alSet workflowData varName value)
  | _ => (.error "set_variable step requires 'name' config", workflowData)

/-- `workflowAgent.executeStep`: dispatch on the step type; returns the step
result (or error) and the possibly-mutated workflow data. Step-level timeouts
never fire under the fixed clock. -/
def executeStep (step : WorkflowStep) (workflowData : GoMap) (now : Nat) :
    Except String GoVal × GoMap :=
  if step.type = "log" then (.ok (executeLogStep step workflowData now), workflowData)
  else if step.type = "delay" then (.ok (executeDelayStep step), workflowData)
  else if step.type = "transform" then (executeTransformStep step workflowData, workflowData)
  else if step.type = "condition" then (executeConditionStep step workflowData, workflowData)
  else if step.type = "http_call" then (.ok (executeHTTPCallStep step), workflowData)
  else if step.type = "set_variable" then executeSetVariableStep step workflowData
  else (.error ("unsupported step type: " ++ step.type), workflowData)

/-- The identifying data of one workflow `Execute` call: agent identity, the
task, the full step count and the fixed clock. -/
structure WfEnv where
  agentId : String
  agentType : String
  taskID : String
  totalSteps : Nat
  now : Nat
deriving Repr

/-- Outcome of the body of the step loop for one step: either the loop
proceeds with extended `results` and updated data, or `Execute` returns the
aborted `Result` (paired with the step error it also returns). -/
inductive StepOutcome where
  | proceed (results : List GoMap) (workflowData : GoMap) : StepOutcome
  | stopped (res : McpResult) (err : String) : StepOutcome
deriving Repr

/-- The `Result` built when a step fails under the `stop` policy (1-based
index `stepNum`); `completed_steps` receives the records accumulated so far,
the failing step's record included. -/
def abortResult (env : WfEnv) (stepNum : Nat) (err : String)
    (results : List GoMap) (workflowData : GoMap) : McpResult :=
  { taskID := env.taskID,
    success := false,
    error := "workflow stopped at step " ++ toString stepNum ++ ": " ++ err,
    output := [("completed_steps", .vList (results.map GoVal.vMap)),
               ("failed_at_step", .vInt (Int.ofNat stepNum)),
               ("workflow_data", .vMap workflowData)],
    duration := 0,
    metadata := [("agent_id", .vStr env.agentId),
                 ("agent_type", .vStr env.agentType),
                 ("total_steps", .vInt (Int.ofNat env.totalSteps)),
                 ("completed", .vInt (Int.ofNat (stepNum - 1)))],
    nextActions := [] }

/-- One iteration of the step loop of `workflowAgent.Execute` for the 0-based
step index `i`: run the step, build its record, apply the `on_error` policy
(`continue` / `retry` once / default stop), merge a non-nil step result into
the workflow data as `step_N_result`, and append the record. -/
def execOneStep (env : WfEnv) (step : WorkflowStep) (i : Nat)
    (results : List GoMap) (workflowData : GoMap) : StepOutcome :=
  let out := executeStep step workflowData env.now
  let stepInfo0 : GoMap :=
    [("step", .vInt (Int.ofNat (i + 1))), ("type", .vStr step.type),
     ("description", .vStr step.description), ("duration", .vInt 0),
     ("success", .vBool out.1.isOk)]
  match out.1 with
  | .ok v =>
    let stepInfo1 := alSet stepInfo0 "output" v
    let data1 := alSet out.2 ("step_" ++ toString (i + 1) ++ "_result") v
    .proceed (results ++ [stepInfo1]) data1
  | .error e =>
    let stepInfo1 := alSet stepInfo0 "error" (.vStr e)
    if step.onError = "continue" then
      .proceed (results ++ [alSet stepInfo1 "action" (.vStr "continued")]) out.2
    else if step.onError = "retry" then
      let out2 := executeStep step out.2 env.now
      match out2.1 with
      | .error e2 =>
        let stepInfo2 := alSet (alSet stepInfo1 "retry_error" (.vStr e2))
                               "action" (.vStr "retry_failed")
        .proceed (results ++ [stepInfo2]) out2.2
      | .ok v2 =>
        let stepInfo2 := alSet (alSet stepInfo1 "action" (.vStr "retry_success"))
                               "success" (.vBool true)
        let stepInfo3 := alSet stepInfo2 "output" v2
        let data2 := alSet out2.2 ("step_" ++ toString (i + 1) ++ "_result") v2
        .proceed (results ++ [stepInfo3]) data2
    else
      let stepInfo2 := alSet stepInfo1 "action" (.vStr "stopped")
      .stopped (abortResult env (i + 1) e (results ++ [stepInfo2]) out.2) e

/-- Final state of the step loop: aborted early with a `Result` and error, or
finished with the accumulated records and final workflow data. -/
inductive WfOut where
  | aborted (res : McpResult) (err : String) : WfOut
  | finished (results : List GoMap) (workflowData : GoMap) : WfOut
deriving Repr

/-- The step loop of `workflowAgent.Execute`. -/
def wfGo (env : WfEnv) : List WorkflowStep → Nat → List GoMap → GoMap → WfOut
  | [], _, results, workflowData => .finished results workflowData
  | step :: rest, i, results, workflowData =>
    match execOneStep env step i results workflowData with
    | .proceed results1 data1 => wfGo env rest (i + 1) results1 data1
    | .stopped res err => .aborted res err

/-- The environment one `workflowAgent.Execute` call runs its step loop in. -/
def wfEnvFor (agentId : String) (steps : List WorkflowStep) (task : McpTask)
    (now : Nat) : WfEnv :=
  { agentId := agentId, agentType := "workflow", taskID := task.id,
    totalSteps := steps.length, now := now }

/-- `workflowAgent.Execute` as a function of the agent's parsed steps:
seeds the workflow data from `task.Input`, runs the steps in order, and
builds the final `Result` (state/metrics bookkeeping in `baseAgent` does
not influence the returned value and is not modelled). Returns the `Result`
together with the Go `error` return (`some` = non-nil). -/
def wfExecute (agentId : String) (steps : List WorkflowStep) (task : McpTask)
    (now : Nat) : McpResult × Option String :=
  match wfGo (wfEnvFor agentId steps task now) steps 0 [] task.input with
  | .aborted res err => (res, some err)
  | .finished results workflowData =>
    ({ taskID := task.id,
       success := true,
       output := [("steps_executed", .vList (results.map GoVal.vMap)),
                  ("workflow_data", .vMap workflowData),
                  ("summary", .vMap [("total_steps", .vInt (Int.ofNat steps.length)),
                                     ("completed", .vInt (Int.ofNat results.length)),
                                     ("total_duration", .vInt 0)])],
       error := "",
       duration := 0,
       metadata := [("agent_id", .vStr agentId), ("agent_type", .vStr "workflow")],
       nextActions := [] }, none)

/-! ## Orchestrator: agent selection (src/internal/mcp/orchestrator.go) -/

/-- The concrete agent variants; the adapter variant carries the set of task
types its externally-registered adapters can handle (`GetByCapability`
returning a non-empty slice is modelled as membership in this list). -/
inductive AgentKind where
  | ai : AgentKind
  | http : AgentKind
  | workflow : AgentKind
  | adapter (registryCapabilities : List String) : AgentKind
  | mock : AgentKind
deriving Repr, DecidableEq

/-- `CanHandle` of each variant: a pure membership test in the variant's
supported-type list; the mock agent handles everything; the adapter agent
additionally consults its adapter registry. -/
def CanHandle (kind : AgentKind) (taskType : String) : Bool :=
  match kind with
  | .ai => ["text_generation", "conversation", "analysis", "summarization",
            "ai", "openai", "gpt", "chat"].contains taskType
  | .http => ["http_request", "api_call", "webhook", "integration",
              "get", "post", "put", "patch", "delete"].contains taskType
  | .workflow => ["workflow", "sequence", "orchestration", "automation",
                  "pipeline", "process"].contains taskType
  | .adapter registryCapabilities =>
    ["http_request", "api_call", "webhook", "integration", "create_adapter",
     "list_adapters", "adapter_health"].contains taskType
    || registryCapabilities.contains taskType
  | .mock => true

/-- One registered agent as the orchestrator's selection loop observes it. -/
structure RegAgent where
  id : String
  kind : AgentKind
  status : AgentStatus
deriving Repr, DecidableEq

/-- The selection scan of `orchestrator.ExecuteTask`: first agent (in
registry iteration order) with `CanHandle && IsHealthy()` whose observed
state is `Idle`. -/
def findSuitableAgent (agents : List RegAgent) (taskType : String) : Option RegAgent :=
  agents.find? (fun a => CanHandle a.kind taskType && IsHealthy a.status
                         && a.status = AgentStatus.idle)

/-- `orchestrator.ExecuteTask`, parameterized by the selected agent's
`Execute` behaviour (`execA`), which is variant-specific and may involve
I/O. When no suitable agent exists it fails with both an error and a
`success=false` result; otherwise the selected agent's result and error are
returned unchanged (the orchestrator's metric counters do not feed back into
the returned value and are not modelled). -/
def ExecuteTask (execA : RegAgent → McpTask → McpResult × Option String)
    (agents : List RegAgent) (task : McpTask) : McpResult × Option String :=
  match findSuitableAgent agents task.type with
  | none =>
    ({ taskID := task.id, success := false, output := [],
       error := "no suitable agent available", duration := 0, metadata := [],
       nextActions := [] },
     some ("no suitable agent found for task type: " ++ task.type))
  | some agent => execA agent task

/-! ## Orchestrator: context passing (orchestrator.go + baseAgent) -/

/-- The context-relevant state of one agent: `baseAgent.context` and the
mirror copy kept in `baseAgent.state.Context`. -/
structure AgentCtx where
  context : GoMap
  stateContext : GoMap
deriving Repr

/-- `baseAgent.SetContext`: replaces both the agent context and the state's
context with (copies of) the given map; never returns an error. -/
def SetContext (_agent : AgentCtx) (ctx : GoMap) : AgentCtx :=
  { context := ctx, stateContext := ctx }

/-- `baseAgent.GetContext`: returns a copy of the agent's context. -/
def GetContext (agent : AgentCtx) : GoMap := agent.context

/-- The projection loop of `orchestrator.ShareContext`: keeps, in key-list
order, exactly the requested keys that exist in the source context. -/
def projectContext (fromContext : GoMap) (keys : List String) : GoMap :=
  keys.foldl (fun sharedContext key =>
    match alGet fromContext key with
    | some value => alSet sharedContext key value
    | none => sharedContext) []

/-- `orchestrator.ShareContext` over the registry (agent ID ↦ context state):
looks up both agents, projects the source's context onto `keys`, and replaces
the target's context with that projection. Returns the updated registry and
the returned error. -/
def ShareContext (registry : List (String × AgentCtx)) (fromAgentID toAgentID : String)
    (keys : List String) : List (String × AgentCtx) × Option String :=
  match alGet registry fromAgentID with
  | none => (registry, some ("source agent not found: agent not found: " ++ fromAgentID))
  | some fromAgent =>
    match alGet registry toAgentID with
    | none => (registry, some ("target agent not found: agent not found: " ++ toAgentID))
    | some toAgent =>
      let fromContext := GetContext fromAgent
      let sharedContext := projectContext fromContext keys
      (alSet registry toAgentID (SetContext toAgent sharedContext), none)

/-! ## Mock agent delay (src/internal/mcp/mock_agent.go) -/

/-- `mockAgent.getProcessingTime`: min/max from the config (defaults 100 and
2000 ms), then `minMs + rand.Intn(maxMs-minMs)`. `rand.Intn n` panics for
`n ≤ 0`, modelled as `none`; `draw` is the arbitrary random value, reduced
into `[0, maxMs-minMs)` as `Intn` guarantees. -/
def getProcessingTime (config : Option GoMap) (draw : Int) : Option Int :=
  let minMs := match cfgGet config "min_processing_time_ms" with
    | some (.vInt n) => n
    | _ => 100
  let maxMs := match cfgGet config "max_processing_time_ms" with
    | some (.vInt n) => n
    | _ => 2000
  if maxMs - minMs ≤ 0 then none
  else some (minMs + draw.emod (maxMs - minMs))

/-! ## Derived step-record shapes used in theorem statements -/

/-- The record `execOneStep` appends for a step (1-based `stepNum`) that
fails under the default/stop policy. -/
def stoppedStepRecord (step : WorkflowStep) (stepNum : Nat) (e : String) : GoMap :=
  alSet (alSet [("step", .vInt (Int.ofNat stepNum)), ("type", .vStr step.type),
                ("description", .vStr step.description), ("duration", .vInt 0),
                ("success", .vBool false)]
          "error" (.vStr e))
    "action" (.vStr "stopped")

/-- The record `execOneStep` appends for a step whose `retry` attempt also
failed (errors `e` then `e2`). -/
def retryFailedRecord (step : WorkflowStep) (stepNum : Nat) (e e2 : String) : GoMap :=
  alSet (alSet (alSet [("step", .vInt (Int.ofNat stepNum)), ("type", .vStr step.type),
                       ("description", .vStr step.description), ("duration", .vInt 0),
                       ("success", .vBool false)]
                 "error" (.vStr e))
          "retry_error" (.vStr e2))
    "action" (.vStr "retry_failed")

/-! ## Concrete fixtures used by witnesses and counterexamples -/

/-- An already-cancelled task record. -/
def c1CancelledTask : AsyncTask :=
  { id := "t1", taskType := "demo", description := "", userID := "", botID := "",
    input := [], taskContext := [], metadata := [], priority := 0, timeout := 0,
    status := TaskStatus.cancelled, result := [], error := "task cancelled by user",
    executionTime := 0, createdAt := 0, updatedAt := 0, startedAt := 0, completedAt := 0 }

/-- A started manager holding the cancelled task `t1`. -/
def c1Tm : TaskManagerState :=
  { tasks := [("t1", c1CancelledTask)], queue := [], started := true,
    stats := emptyTaskStats, workerCount := 5, maxQueueSize := 1000 }

/-- A completed task record. -/
def c1CompletedTask : AsyncTask :=
  { c1CancelledTask with status := TaskStatus.completed, error := "" }

/-- A started manager holding the completed task `t1`. -/
def c1TmCompleted : TaskManagerState :=
  { c1Tm with tasks := [("t1", c1CompletedTask)] }

/-- A workflow config that passes `ValidateConfig` (`steps` exists and is an
array) but whose steps array holds a non-object element. -/
def c2BadConfig : MCPConfig :=
  { type := "workflow", name := "wf", version := "1",
    config := some [("steps", .vList [.vInt 1])], capabilities := [], timeout := 0 }

/-- A valid mock-agent configuration. -/
def c2MockConfig : MCPConfig :=
  { type := "mock", name := "m", version := "1", config := none,
    capabilities := [], timeout := 0 }

/-- A log step that always succeeds. -/
def wfLogStep : WorkflowStep :=
  { type := "log", description := "say hi", config := [("message", .vStr "hi")],
    onError := "", timeout := 0 }

/-- A transform step without an `operation`, so it always fails; stop policy. -/
def wfBadStopStep : WorkflowStep :=
  { type := "transform", description := "bad", config := [], onError := "stop",
    timeout := 0 }

/-- A transform step without an `operation`, so it always fails; retry policy. -/
def wfBadRetryStep : WorkflowStep :=
  { type := "transform", description := "bad", config := [], onError := "retry",
    timeout := 0 }

/-- A workflow task with an empty input bag. -/
def wfTask : McpTask :=
  { id := "task-1", type := "workflow", description := "", input := [],
    priority := 0, deadline := none, metadata := [] }

/-- Steps for the stop scenario: step 2 of 3 fails with `on_error="stop"`. -/
def c4Steps : List WorkflowStep := [wfLogStep, wfBadStopStep, wfLogStep]

/-- The record the first (log) step of `c4Steps` produces. -/
def c4LogRecord : GoMap :=
  [("step", .vInt 1), ("type", .vStr "log"), ("description", .vStr "say hi"),
   ("duration", .vInt 0), ("success", .vBool true),
   ("output", .vMap [("message", .vStr "hi"), ("timestamp", .vInt 0)])]

/-- The workflow data after the first (log) step of `c4Steps`. -/
def c4Data1 : GoMap :=
  [("step_1_result", .vMap [("message", .vStr "hi"), ("timestamp", .vInt 0)])]

/-- A started manager whose 1-slot queue is already full. -/
def c5Tm : TaskManagerState :=
  { tasks := [], queue := ["t0"], started := true, stats := emptyTaskStats,
    workerCount := 5, maxQueueSize := 1 }

/-- The task submitted while the queue is full. -/
def c5Task : AsyncTask :=
  { c1CancelledTask with id := "t9", status := TaskStatus.pending, error := "" }

/-- A registry holding one busy HTTP agent. -/
def c6Agents : List RegAgent :=
  [{ id := "a1", kind := AgentKind.http, status := AgentStatus.busy }]

/-- An `api_call` task for the selection scenario. -/
def c6Task : McpTask :=
  { id := "t1", type := "api_call", description := "", input := [],
    priority := 0, deadline := none, metadata := [] }

/-- A stand-in for the selected agent's `Execute` (never reached here). -/
def c6Exec : RegAgent → McpTask → McpResult × Option String :=
  fun _ _ => ({ taskID := "", success := true, output := [], error := "",
                duration := 0, metadata := [], nextActions := [] }, none)

/-- An agent whose context holds `lang` and `tz`. -/
def c7Agent : AgentCtx :=
  { context := [("lang", .vStr "es"), ("tz", .vStr "UTC")],
    stateContext := [("lang", .vStr "es"), ("tz", .vStr "UTC")] }

/-- A registry with the single agent `a` (source = target). -/
def c7Registry : List (String × AgentCtx) := [("a", c7Agent)]

/-- A second agent with a prior context of its own. -/
def c7AgentB : AgentCtx :=
  { context := [("motd", .vStr "x")], stateContext := [("motd", .vStr "x")] }

/-- A registry with distinct source `a` and target `b`. -/
def c7RegistryTwo : List (String × AgentCtx) := [("a", c7Agent), ("b", c7AgentB)]

/-- A mock-agent config with equal min and max processing times. -/
def c8Config : Option GoMap :=
  some [("min_processing_time_ms", .vInt 500), ("max_processing_time_ms", .vInt 500)]

/-- A pending task record. -/
def c9PendingTask : AsyncTask :=
  { c1CancelledTask with status := TaskStatus.pending, error := "" }

/-- A started manager holding pending task `t1` with non-zero counters. -/
def c9Tm : TaskManagerState :=
  { tasks := [("t1", c9PendingTask)], queue := ["t1"], started := true,
    stats := { emptyTaskStats with totalTasks := 1, pendingTasks := 1 },
    workerCount := 5, maxQueueSize := 1000 }

/-- Steps for the retry scenario: step 1 of 2 fails twice under `retry`. -/
def c10Steps : List WorkflowStep := [wfBadRetryStep, wfLogStep]

/-- The records accumulated after the retried-and-failed first step and the
succeeding second step of `c10Steps`. -/
def c10FinalRecords : List GoMap :=
  [retryFailedRecord wfBadRetryStep 1 "transform step requires 'operation' config"
     "transform step requires 'operation' config",
   [("step", .vInt 2), ("type", .vStr "log"), ("description", .vStr "say hi"),
    ("duration", .vInt 0), ("success", .vBool true),
    ("output", .vMap [("message", .vStr "hi"), ("timestamp", .vInt 0)])]]

/-- The final workflow data of the `c10Steps` run. -/
def c10FinalData : GoMap :=
  [("step_2_result", .vMap [("message", .vStr "hi"), ("timestamp", .vInt 0)])]

/-! ## Helper lemmas -/

theorem alGet_alSet_self {α : Type} (l : List (String × α)) (k : String) (v : α) :
    alGet (alSet l k v) k = some v := by
  induction l with
  | nil => simp [alGet, alSet]
  | cons hd tl ih =>
    obtain ⟨k', v'⟩ := hd
    by_cases h : k' = k
    · simp [alGet, alSet, h]
    · simp [alGet, alSet, h, ih]

theorem alGet_alSet_ne {α : Type} (l : List (String × α)) (k k' : String) (v : α)
    (h : k ≠ k') : alGet (alSet l k v) k' = alGet l k' := by
  induction l with
  | nil => simp [alGet, alSet, h]
  | cons hd tl ih =>
    obtain ⟨k0, v0⟩ := hd
    by_cases h0 : k0 = k
    · subst h0
      simp [alGet, alSet, h]
    · simp only [alSet, if_neg h0, alGet]
      by_cases h1 : k0 = k'
      · simp [h1]
      · simp [h1, ih]

/-! ## C3: IsHealthy and the Error status -/

/-- C3 counterexample: the claim says an agent whose status is Error is still
reported healthy; in the code `IsHealthy` returns false for the Error status
(its final `return false` branch), so the claim is false. -/
theorem c3_counterexample : IsHealthy AgentStatus.error = false := rfl

/-- C3 (amended): `IsHealthy` is true exactly for the Idle and Busy statuses
and false for both Terminated and Error (and any other status). -/
theorem c3_isHealthy_char (status : AgentStatus) :
    IsHealthy status
      = (decide (status = AgentStatus.idle) || decide (status = AgentStatus.busy)) := by
  cases status <;> rfl

/-! ## C8: the mock agent's randomized-delay computation -/

/-- C8: evaluation of the code at the failing input. With
`min_processing_time_ms = max_processing_time_ms = 500` the mock agent's
`getProcessingTime` computes `rand.Intn(500-500) = rand.Intn(0)`, which
panics in Go (modelled as `none`), contradicting the claim that `Execute`
never panics and that the delay computation is total for all configured
min/max processing times. -/
theorem c8_panic_on_equal_bounds (draw : Int) :
    getProcessingTime c8Config draw = none := rfl

/-! ## C1: CancelTask on terminal tasks -/

/-- C1 counterexample: the claim extends the terminal check to Cancelled,
but `CancelTask` only rejects Completed and Failed; on the already-cancelled
task `t1` it returns a nil error and rewrites the record's `updatedAt`
timestamp (0 becomes 7), so the record does not keep its prior values. -/
theorem c1_counterexample :
    (CancelTask c1Tm "t1" 7).2 = none ∧
    ((alGet (CancelTask c1Tm "t1" 7).1.tasks "t1").map AsyncTask.updatedAt) = some 7 ∧
    c1CancelledTask.updatedAt = 0 :=
  ⟨rfl, rfl, rfl⟩

/-- C1 (amended): for every task record whose status is Completed or Failed,
`CancelTask` returns the error "cannot cancel completed task" and leaves the
whole manager state (the task record included) unchanged; a Cancelled task,
by contrast, can be "cancelled" again. -/
theorem c1_cancel_completed_failed_rejected (tm : TaskManagerState) (taskID : String)
    (now : Nat) (task : AsyncTask)
    (hget : alGet tm.tasks taskID = some task)
    (hterm : task.status = TaskStatus.completed ∨ task.status = TaskStatus.failed) :
    CancelTask tm taskID now = (tm, some "cannot cancel completed task") := by
  simp only [CancelTask, hget]
  rw [if_pos hterm]

/-- Witness for C1's amended theorem at the completed task `t1`. -/
theorem c1_witness :
    alGet c1TmCompleted.tasks "t1" = some c1CompletedTask ∧
    c1CompletedTask.status = TaskStatus.completed ∧
    CancelTask c1TmCompleted "t1" 7 = (c1TmCompleted, some "cannot cancel completed task") :=
  ⟨rfl, rfl,
   c1_cancel_completed_failed_rejected c1TmCompleted "t1" 7 c1CompletedTask rfl (Or.inl rfl)⟩

/-! ## C9: CancelTask does not decrement the pending/running counters -/

/-- C9: after a successful `CancelTask` on a Pending (or Running) task, the
pending/running counters reported by `GetStats` are unchanged — the Go code
compares the status only after overwriting it with Cancelled — while
`CancelledTasks` is incremented and the stored record is Cancelled. -/
theorem c9_cancel_keeps_counters (tm : TaskManagerState) (taskID : String) (now : Nat)
    (task : AsyncTask) (hget : alGet tm.tasks taskID = some task)
    (hactive : task.status = TaskStatus.pending ∨ task.status = TaskStatus.running) :
    (CancelTask tm taskID now).2 = none ∧
    (GetStats (CancelTask tm taskID now).1 now).pendingTasks
      = (GetStats tm now).pendingTasks ∧
    (GetStats (CancelTask tm taskID now).1 now).runningTasks
      = (GetStats tm now).runningTasks ∧
    (GetStats (CancelTask tm taskID now).1 now).cancelledTasks
      = (GetStats tm now).cancelledTasks + 1 ∧
    ((alGet (CancelTask tm taskID now).1.tasks taskID).map AsyncTask.status)
      = some TaskStatus.cancelled := by
  have hterm : ¬(task.status = TaskStatus.completed ∨ task.status = TaskStatus.failed) := by
    rcases hactive with h | h <;> simp [h]
  simp only [CancelTask, hget]
  rw [if_neg hterm]
  simp [GetStats, alGet_alSet_self]

/-- Witness for C9 at a manager holding the pending task `t1`. -/
theorem c9_witness :
    alGet c9Tm.tasks "t1" = some c9PendingTask ∧
    c9PendingTask.status = TaskStatus.pending ∧
    (CancelTask c9Tm "t1" 4).2 = none ∧
    (GetStats (CancelTask c9Tm "t1" 4).1 4).pendingTasks = (GetStats c9Tm 4).pendingTasks ∧
    (GetStats (CancelTask c9Tm "t1" 4).1 4).cancelledTasks
      = (GetStats c9Tm 4).cancelledTasks + 1 :=
  ⟨rfl, rfl,
   (c9_cancel_keeps_counters c9Tm "t1" 4 c9PendingTask rfl (Or.inl rfl)).1,
   (c9_cancel_keeps_counters c9Tm "t1" 4 c9PendingTask rfl (Or.inl rfl)).2.1,
   (c9_cancel_keeps_counters c9Tm "t1" 4 c9PendingTask rfl (Or.inl rfl)).2.2.2.1⟩

/-! ## C5: SubmitTask on a full queue -/

/-- C5: on a started manager whose queue already holds `maxQueueSize` tasks,
the next `SubmitTask` returns the error "task queue is full" without
enqueueing (the non-blocking `select`/`default` path), and the submitted
task is still stored in the task table with status Failed and error
"task queue is full". -/
theorem c5_submit_queue_full (tm : TaskManagerState) (task : AsyncTask) (now : Nat)
    (hstarted : tm.started = true)
    (hfull : tm.queue.length = tm.maxQueueSize.toNat) :
    (SubmitTask tm task now).2 = some "task queue is full" ∧
    ((alGet (SubmitTask tm task now).1.tasks
        (if task.id = "" then "task-" ++ toString now else task.id)).map AsyncTask.status)
      = some TaskStatus.failed ∧
    ((alGet (SubmitTask tm task now).1.tasks
        (if task.id = "" then "task-" ++ toString now else task.id)).map AsyncTask.error)
      = some "task queue is full" ∧
    (SubmitTask tm task now).1.queue = tm.queue := by
  have hnb : ¬(tm.queue.length < tm.maxQueueSize.toNat) := by omega
  simp [SubmitTask, hstarted, hnb, alGet_alSet_self]

/-- Witness for C5: a started manager with capacity 1 and one queued task;
submitting `t9` fails fast and stores it as Failed. -/
theorem c5_witness :
    c5Tm.started = true ∧
    c5Tm.queue.length = c5Tm.maxQueueSize.toNat ∧
    (SubmitTask c5Tm c5Task 3).2 = some "task queue is full" ∧
    ((alGet (SubmitTask c5Tm c5Task 3).1.tasks "t9").map AsyncTask.status)
      = some TaskStatus.failed ∧
    (SubmitTask c5Tm c5Task 3).1.queue = c5Tm.queue :=
  ⟨rfl, rfl,
   (c5_submit_queue_full c5Tm c5Task 3 rfl rfl).1,
   (c5_submit_queue_full c5Tm c5Task 3 rfl rfl).2.1,
   (c5_submit_queue_full c5Tm c5Task 3 rfl rfl).2.2.2⟩

/-! ## C6: ExecuteTask with no suitable agent -/

/-- C6: when no registered agent satisfies
`CanHandle(task.type) && IsHealthy() && status == Idle`, the orchestrator's
`ExecuteTask` returns both a non-nil error ("no suitable agent found for
task type: ...") and a `Result` with `success == false` and error
"no suitable agent available". -/
theorem c6_no_suitable_agent (execA : RegAgent → McpTask → McpResult × Option String)
    (agents : List RegAgent) (task : McpTask)
    (h : ∀ a ∈ agents, ¬(CanHandle a.kind task.type = true ∧ IsHealthy a.status = true ∧
                          a.status = AgentStatus.idle)) :
    ExecuteTask execA agents task =
      ({ taskID := task.id, success := false, output := [],
         error := "no suitable agent available", duration := 0, metadata := [],
         nextActions := [] },
       some ("no suitable agent found for task type: " ++ task.type)) := by
  have hfind : findSuitableAgent agents task.type = none := by
    rw [findSuitableAgent, List.find?_eq_none]
    intro a ha
    have ha' := h a ha
    simp only [Bool.and_eq_true, decide_eq_true_eq]
    tauto
  simp [ExecuteTask, hfind]

/-- Witness for C6: a registry holding only a busy HTTP agent cannot serve
an `api_call` task. -/
theorem c6_witness :
    (∀ a ∈ c6Agents, ¬(CanHandle a.kind c6Task.type = true ∧ IsHealthy a.status = true ∧
                        a.status = AgentStatus.idle)) ∧
    ExecuteTask c6Exec c6Agents c6Task =
      ({ taskID := "t1", success := false, output := [],
         error := "no suitable agent available", duration := 0, metadata := [],
         nextActions := [] },
       some "no suitable agent found for task type: api_call") :=
  ⟨by decide, c6_no_suitable_agent c6Exec c6Agents c6Task (by decide)⟩

/-! ## C7: ShareContext projection and replacement -/

/-- C7 counterexample: the claim quantifies over every pair of registered
agents; taking source = target (`a`, whose context is
`lang:es, tz:UTC`) with keys `["lang"]`, `ShareContext` succeeds and
replaces the source's own context with the projection, so the source
agent's context is not unchanged afterward. -/
theorem c7_counterexample :
    (ShareContext c7Registry "a" "a" ["lang"]).2 = none ∧
    ((alGet (ShareContext c7Registry "a" "a" ["lang"]).1 "a").map GetContext)
      = some [("lang", GoVal.vStr "es")] ∧
    GetContext c7Agent ≠ [("lang", GoVal.vStr "es")] :=
  ⟨rfl, rfl, fun h => absurd (congrArg List.length h) (by decide)⟩

/-- C7 (amended): for every pair of *distinct* registered agents, the target
agent's context afterward is exactly the projection of the source's context
onto the requested keys (no merge with the target's prior context, and the
state-context mirror gets the same projection), and the source agent's
entry is unchanged. -/
theorem c7_share_context_distinct (registry : List (String × AgentCtx))
    (fromAgentID toAgentID : String) (keys : List String)
    (fromAgent toAgent : AgentCtx)
    (hne : fromAgentID ≠ toAgentID)
    (hfrom : alGet registry fromAgentID = some fromAgent)
    (hto : alGet registry toAgentID = some toAgent) :
    (ShareContext registry fromAgentID toAgentID keys).2 = none ∧
    alGet (ShareContext registry fromAgentID toAgentID keys).1 toAgentID
      = some (SetContext toAgent (projectContext (GetContext fromAgent) keys)) ∧
    ((alGet (ShareContext registry fromAgentID toAgentID keys).1 toAgentID).map GetContext)
      = some (projectContext (GetContext fromAgent) keys) ∧
    alGet (ShareContext registry fromAgentID toAgentID keys).1 fromAgentID
      = some fromAgent := by
  refine ⟨?_, ?_, ?_, ?_⟩
  · simp [ShareContext, hfrom, hto]
  · simp only [ShareContext, hfrom, hto]
    exact alGet_alSet_self registry toAgentID _
  · simp only [ShareContext, hfrom, hto]
    rw [alGet_alSet_self]
    rfl
  · simp only [ShareContext, hfrom, hto]
    rw [alGet_alSet_ne registry toAgentID fromAgentID _ (Ne.symm hne)]
    exact hfrom

/-- Witness for C7's amended theorem: sharing `lang` from `a` to `b`
replaces `b`'s entire context with `lang:es` (its prior `motd` entry is
gone) and leaves `a` untouched. -/
theorem c7_witness :
    ("a" : String) ≠ "b" ∧
    alGet c7RegistryTwo "a" = some c7Agent ∧
    alGet c7RegistryTwo "b" = some c7AgentB ∧
    ((alGet (ShareContext c7RegistryTwo "a" "b" ["lang"]).1 "b").map GetContext)
      = some (projectContext (GetContext c7Agent) ["lang"]) ∧
    alGet (ShareContext c7RegistryTwo "a" "b" ["lang"]).1 "a" = some c7Agent :=
  ⟨by decide, rfl, rfl,
   (c7_share_context_distinct c7RegistryTwo "a" "b" ["lang"] c7Agent c7AgentB
     (by decide) rfl rfl).2.2.1,
   (c7_share_context_distinct c7RegistryTwo "a" "b" ["lang"] c7Agent c7AgentB
     (by decide) rfl rfl).2.2.2⟩

/-! ## C2: ValidateConfig followed by CreateAgent -/

/-- C2 counterexample: a workflow config whose `steps` array holds the
non-object element `1` passes `ValidateConfig` (which only checks that
`steps` exists and is an array) but `CreateAgent` fails in
`parseWorkflowSteps`, so validate-then-create is not error-free for every
validated configuration. -/
theorem c2_counterexample :
    ValidateConfig c2BadConfig = none ∧
    CreateAgent c2BadConfig
      = Except.error "failed to parse workflow steps: step 0 must be an object" :=
  ⟨rfl, rfl⟩

/-- C2 (amended): for every configuration accepted by `ValidateConfig`,
`CreateAgent` succeeds whenever the type is not `workflow`; for `workflow`
it succeeds exactly when `parseWorkflowSteps` accepts the configured steps
(deep step validation happens only at construction time). -/
theorem c2_validate_then_create (config : MCPConfig)
    (hvalid : ValidateConfig config = none) :
    (config.type ≠ "workflow" → (CreateAgent config).isOk = true) ∧
    (config.type = "workflow" →
      (CreateAgent config).isOk = (parseWorkflowSteps config.config).isOk) := by
  have htype : config.type = "ai" ∨ config.type = "http" ∨ config.type = "workflow" ∨
      config.type = "adapter" ∨ config.type = "mock" := by
    by_contra hc
    push_neg at hc
    obtain ⟨h1, h2, h3, h4, h5⟩ := hc
    have hempty : config.type ≠ "" := by
      intro h0
      rw [ValidateConfig, if_pos h0] at hvalid
      exact Option.noConfusion hvalid
    have hsup : GetSupportedTypes.contains config.type = false := by
      simp [GetSupportedTypes, List.contains, h1, h2, h3, h4, h5]
    rw [ValidateConfig, if_neg hempty] at hvalid
    by_cases hname : config.name = ""
    · rw [if_pos hname] at hvalid
      exact Option.noConfusion hvalid
    · rw [if_neg hname, if_pos (by rw [hsup]; rfl)] at hvalid
      exact Option.noConfusion hvalid
  constructor
  · intro hne
    rcases htype with h | h | h | h | h
    · simp only [CreateAgent, h]
      rfl
    · simp only [CreateAgent, h]
      rfl
    · exact absurd h hne
    · simp only [CreateAgent, h]
      rfl
    · simp only [CreateAgent, h]
      rfl
  · intro hwf
    simp only [CreateAgent, hwf]
    cases hp : parseWorkflowSteps config.config <;> simp only [hp] <;> rfl

/-- Witness for C2's amended theorem at a valid mock configuration. -/
theorem c2_witness :
    ValidateConfig c2MockConfig = none ∧
    c2MockConfig.type ≠ "workflow" ∧
    (CreateAgent c2MockConfig).isOk = true :=
  ⟨rfl, by decide, (c2_validate_then_create c2MockConfig rfl).1 (by decide)⟩

/-! ## Step-loop lemmas for C4 and C10 -/

theorem execOneStep_stop (env : WfEnv) (step : WorkflowStep) (i : Nat)
    (results : List GoMap) (data : GoMap) (e : String) (data1 : GoMap)
    (hfail : executeStep step data env.now = (Except.error e, data1))
    (hpol : step.onError = "stop" ∨ step.onError = "") :
    execOneStep env step i results data =
      .stopped (abortResult env (i + 1) e
                 (results ++ [stoppedStepRecord step (i + 1) e]) data1) e := by
  rcases hpol with hp | hp <;>
    · unfold execOneStep
      rw [hfail, hp]
      rfl

theorem execOneStep_retry_failed (env : WfEnv) (step : WorkflowStep) (i : Nat)
    (results : List GoMap) (data : GoMap) (e : String) (data1 : GoMap)
    (e2 : String) (data2 : GoMap)
    (hfail1 : executeStep step data env.now = (Except.error e, data1))
    (hfail2 : executeStep step data1 env.now = (Except.error e2, data2))
    (hpol : step.onError = "retry") :
    execOneStep env step i results data =
      .proceed (results ++ [retryFailedRecord step (i + 1) e e2]) data2 := by
  simp only [execOneStep, hfail1, hpol, hfail2]
  rfl

theorem execOneStep_proceed_length (env : WfEnv) (step : WorkflowStep) (i : Nat)
    (results r1 : List GoMap) (data d1 : GoMap)
    (h : execOneStep env step i results data = .proceed r1 d1) :
    r1.length = results.length + 1 := by
  unfold execOneStep at h
  rcases hE : executeStep step data env.now with ⟨res1, dat1⟩
  rw [hE] at h
  cases res1 with
  | ok v =>
    dsimp only at h
    injection h with h1 h2
    subst h1
    simp
  | error e =>
    dsimp only at h
    by_cases hc : step.onError = "continue"
    · rw [if_pos hc] at h
      injection h with h1 h2
      subst h1
      simp
    · rw [if_neg hc] at h
      by_cases hr : step.onError = "retry"
      · rw [if_pos hr] at h
        rcases hE2 : executeStep step dat1 env.now with ⟨res2, dat2⟩
        rw [hE2] at h
        cases res2 with
        | ok v2 =>
          dsimp only at h
          injection h with h1 h2
          subst h1
          simp
        | error e2 =>
          dsimp only at h
          injection h with h1 h2
          subst h1
          simp
      · rw [if_neg hr] at h
        exact StepOutcome.noConfusion h

theorem wfGo_finished_length (env : WfEnv) : ∀ (l : List WorkflowStep) (i : Nat)
    (r : List GoMap) (d : GoMap) (r' : List GoMap) (d' : GoMap),
    wfGo env l i r d = .finished r' d' → r'.length = r.length + l.length
  | [], i, r, d, r', d', h => by
    simp only [wfGo] at h
    injection h with h1 h2
    subst h1
    simp
  | s :: t, i, r, d, r', d', h => by
    simp only [wfGo] at h
    cases hs : execOneStep env s i r d with
    | proceed r1 d1 =>
      rw [hs] at h
      dsimp only at h
      have hrec := wfGo_finished_length env t (i + 1) r1 d1 r' d' h
      have hone := execOneStep_proceed_length env s i r r1 d d1 hs
      simp only [List.length_cons]
      omega
    | stopped res err =>
      rw [hs] at h
      dsimp only at h
      exact WfOut.noConfusion h

theorem wfGo_append_finished (env : WfEnv) (l2 : List WorkflowStep) :
    ∀ (l1 : List WorkflowStep) (i : Nat) (r : List GoMap) (d : GoMap)
      (r' : List GoMap) (d' : GoMap),
    wfGo env l1 i r d = .finished r' d' →
    wfGo env (l1 ++ l2) i r d = wfGo env l2 (i + l1.length) r' d'
  | [], i, r, d, r', d', h => by
    simp only [wfGo] at h
    injection h with h1 h2
    subst h1
    subst h2
    simp only [List.nil_append, List.length_nil, Nat.add_zero]
  | s :: t, i, r, d, r', d', h => by
    simp only [wfGo] at h
    cases hs : execOneStep env s i r d with
    | proceed r1 d1 =>
      rw [hs] at h
      dsimp only at h
      have hrec := wfGo_append_finished env l2 t (i + 1) r1 d1 r' d' h
      rw [List.cons_append]
      simp only [wfGo, hs]
      rw [hrec]
      congr 1
      simp only [List.length_cons]
      omega
    | stopped res err =>
      rw [hs] at h
      dsimp only at h
      exact WfOut.noConfusion h

/-! ## C4: a failing step under the stop policy -/

/-- C4: if the workflow reaches its (0-based) step `j` with accumulated
records `rs` and data `d`, that step fails with error `e`, and its
`on_error` policy is `stop` or unset, then `Execute` returns
`success = false`, the step error is also returned in the error channel,
`output.failed_at_step` is the 1-based index `j+1`, and
`output.completed_steps` holds exactly the records of the executed steps:
the `j` prior records (`rs.length = j`) plus the failing step's own
record — `j+1` entries in total, matching the spec's "step 2 of 3 fails ⟹
exactly 2 entries". -/
theorem c4_stop_aborts (agentId : String) (steps : List WorkflowStep) (task : McpTask)
    (now : Nat) (j : Nat) (s : WorkflowStep) (rest : List WorkflowStep)
    (rs : List GoMap) (d : GoMap) (e : String) (d1 : GoMap)
    (hdrop : steps.drop j = s :: rest)
    (hrun : wfGo (wfEnvFor agentId steps task now) (steps.take j) 0 [] task.input
              = .finished rs d)
    (hfail : executeStep s d now = (Except.error e, d1))
    (hpol : s.onError = "stop" ∨ s.onError = "") :
    (wfExecute agentId steps task now).2 = some e ∧
    (wfExecute agentId steps task now).1.success = false ∧
    alGet (wfExecute agentId steps task now).1.output "failed_at_step"
      = some (.vInt (Int.ofNat (j + 1))) ∧
    alGet (wfExecute agentId steps task now).1.output "completed_steps"
      = some (.vList ((rs ++ [stoppedStepRecord s (j + 1) e]).map GoVal.vMap)) ∧
    (rs ++ [stoppedStepRecord s (j + 1) e]).length = j + 1 := by
  have hjlen : j ≤ steps.length := by
    by_contra hgt
    push_neg at hgt
    rw [List.drop_eq_nil_of_le (le_of_lt hgt)] at hdrop
    exact List.noConfusion hdrop
  have htake : (steps.take j).length = j := by
    rw [List.length_take]
    omega
  have hsteps : steps.take j ++ s :: rest = steps := by
    conv_rhs => rw [← List.take_append_drop j steps]
    rw [hdrop]
  have hlen : rs.length = j := by
    have hl := wfGo_finished_length (wfEnvFor agentId steps task now)
      (steps.take j) 0 [] task.input rs d hrun
    simpa [htake] using hl
  have hstep := execOneStep_stop (wfEnvFor agentId steps task now) s j rs d e d1 hfail hpol
  have hgo : wfGo (wfEnvFor agentId steps task now) steps 0 [] task.input =
      .aborted (abortResult (wfEnvFor agentId steps task now) (j + 1) e
                 (rs ++ [stoppedStepRecord s (j + 1) e]) d1) e := by
    have h1 := wfGo_append_finished (wfEnvFor agentId steps task now) (s :: rest)
      (steps.take j) 0 [] task.input rs d hrun
    rw [hsteps] at h1
    rw [h1, Nat.zero_add, htake]
    simp only [wfGo, hstep]
  unfold wfExecute
  rw [hgo]
  refine ⟨rfl, rfl, rfl, rfl, ?_⟩
  simp [hlen]

/-- Witness for C4: in a 3-step workflow whose step 2 fails with
`on_error="stop"`, the run aborts at step 2 with exactly 2 completed-step
records. -/
theorem c4_witness :
    c4Steps.drop 1 = wfBadStopStep :: [wfLogStep] ∧
    wfGo (wfEnvFor "ag" c4Steps wfTask 0) (c4Steps.take 1) 0 [] wfTask.input
      = .finished [c4LogRecord] c4Data1 ∧
    executeStep wfBadStopStep c4Data1 0
      = (Except.error "transform step requires 'operation' config", c4Data1) ∧
    wfBadStopStep.onError = "stop" ∧
    (wfExecute "ag" c4Steps wfTask 0).1.success = false ∧
    alGet (wfExecute "ag" c4Steps wfTask 0).1.output "failed_at_step"
      = some (.vInt 2) ∧
    (([c4LogRecord]
        ++ [stoppedStepRecord wfBadStopStep 2 "transform step requires 'operation' config"]).length)
      = 2 :=
  ⟨rfl, rfl, rfl, rfl,
   (c4_stop_aborts "ag" c4Steps wfTask 0 1 wfBadStopStep [wfLogStep] [c4LogRecord]
     c4Data1 "transform step requires 'operation' config" c4Data1
     rfl rfl rfl (Or.inl rfl)).2.1,
   (c4_stop_aborts "ag" c4Steps wfTask 0 1 wfBadStopStep [wfLogStep] [c4LogRecord]
     c4Data1 "transform step requires 'operation' config" c4Data1
     rfl rfl rfl (Or.inl rfl)).2.2.1,
   (c4_stop_aborts "ag" c4Steps wfTask 0 1 wfBadStopStep [wfLogStep] [c4LogRecord]
     c4Data1 "transform step requires 'operation' config" c4Data1
     rfl rfl rfl (Or.inl rfl)).2.2.2.2⟩

/-! ## C10: a twice-failed retried step does not fail the workflow -/

/-- C10: if step `j` (0-based) fails and its single retry also fails under
`on_error="retry"`, the loop proceeds to the remaining steps with a
`retry_failed` record appended rather than aborting, and when the remaining
steps all proceed to the end, `Execute` returns `success = true` with a nil
error — a twice-failed retried step never makes the overall workflow result
a failure. -/
theorem c10_retry_failure_not_fatal (agentId : String) (steps : List WorkflowStep)
    (task : McpTask) (now : Nat) (j : Nat) (s : WorkflowStep)
    (rest : List WorkflowStep) (rs : List GoMap) (d : GoMap) (e : String)
    (d1 : GoMap) (e2 : String) (d2 : GoMap) (rsF : List GoMap) (dF : GoMap)
    (hdrop : steps.drop j = s :: rest)
    (hrun : wfGo (wfEnvFor agentId steps task now) (steps.take j) 0 [] task.input
              = .finished rs d)
    (hpol : s.onError = "retry")
    (hfail1 : executeStep s d now = (Except.error e, d1))
    (hfail2 : executeStep s d1 now = (Except.error e2, d2))
    (hrest : wfGo (wfEnvFor agentId steps task now) rest (j + 1)
               (rs ++ [retryFailedRecord s (j + 1) e e2]) d2 = .finished rsF dF) :
    (wfExecute agentId steps task now).2 = none ∧
    (wfExecute agentId steps task now).1.success = true := by
  have hjlen : j ≤ steps.length := by
    by_contra hgt
    push_neg at hgt
    rw [List.drop_eq_nil_of_le (le_of_lt hgt)] at hdrop
    exact List.noConfusion hdrop
  have htake : (steps.take j).length = j := by
    rw [List.length_take]
    omega
  have hsteps : steps.take j ++ s :: rest = steps := by
    conv_rhs => rw [← List.take_append_drop j steps]
    rw [hdrop]
  have hstep := execOneStep_retry_failed (wfEnvFor agentId steps task now) s j rs d
    e d1 e2 d2 hfail1 hfail2 hpol
  have hgo : wfGo (wfEnvFor agentId steps task now) steps 0 [] task.input =
      .finished rsF dF := by
    have h1 := wfGo_append_finished (wfEnvFor agentId steps task now) (s :: rest)
      (steps.take j) 0 [] task.input rs d hrun
    rw [hsteps] at h1
    rw [h1, Nat.zero_add, htake]
    simp only [wfGo, hstep]
    exact hrest
  unfold wfExecute
  rw [hgo]
  exact ⟨rfl, rfl⟩

/-- Witness for C10: a 2-step workflow whose step 1 fails twice under
`retry`; the run still finishes and `Execute` reports success. -/
theorem c10_witness :
    c10Steps.drop 0 = wfBadRetryStep :: [wfLogStep] ∧
    wfBadRetryStep.onError = "retry" ∧
    executeStep wfBadRetryStep wfTask.input 0
      = (Except.error "transform step requires 'operation' config", wfTask.input) ∧
    wfGo (wfEnvFor "ag" c10Steps wfTask 0) [wfLogStep] 1
      ([] ++ [retryFailedRecord wfBadRetryStep 1
                "transform step requires 'operation' config"
                "transform step requires 'operation' config"]) wfTask.input
      = .finished c10FinalRecords c10FinalData ∧
    (wfExecute "ag" c10Steps wfTask 0).2 = none ∧
    (wfExecute "ag" c10Steps wfTask 0).1.success = true :=
  ⟨rfl, rfl, rfl, rfl,
   (c10_retry_failure_not_fatal "ag" c10Steps wfTask 0 0 wfBadRetryStep [wfLogStep]
     [] wfTask.input "transform step requires 'operation' config" wfTask.input
     "transform step requires 'operation' config" wfTask.input
     c10FinalRecords c10FinalData rfl rfl rfl rfl rfl rfl).1,
   (c10_retry_failure_not_fatal "ag" c10Steps wfTask 0 0 wfBadRetryStep [wfLogStep]
     [] wfTask.input "transform step requires 'operation' config" wfTask.input
     "transform step requires 'operation' config" wfTask.input
     c10FinalRecords c10FinalData rfl rfl rfl rfl rfl rfl).2⟩
